import Mathlib

/-!
Verification of the zombie-nginx configuration generator (`appconf.py`).

The development shallowly embeds the generator: the directive tree and its
serializer (`emit_nginx_conf`), the static-file, upstream, TLS and server
transformers, the global HTTP settings merge (`generate_http`), and the
orchestration pipeline (`main` minus file I/O).  Python dictionaries coming
from the YAML document are modelled as insertion-ordered association lists
over a small value type `YVal`; Python exceptions (including `KeyError` and
`NotImplementedError`) are modelled with `Except String`.
-/

namespace Zombie

/-- One element of a directive tuple: either a string token or a nested list
of directives (each directive being itself a list of elements), mirroring the
Python tuples whose last slot may hold a list. -/
inductive Elem where
  | s (tok : String) : Elem
  | blk (children : List (List Elem)) : Elem
deriving Repr

/-- A directive is an ordered tuple of elements. -/
abbrev Directive := List Elem

/-- A configuration fragment is an ordered list of directives. -/
abbrev Conf := List Directive

/-- `' ' * indent` from `emit_nginx_conf`. -/
def pad (n : Nat) : String := String.mk (List.replicate n ' ')

/-- Text of an element as used by `' '.join(...)`.  In the source a non-string
slot in a join position raises `TypeError`; such trees never arise from the
generators, and the placeholder below is unreachable for well-formed trees. -/
def elemText : Elem → String
  | .s t => t
  | .blk _ => "<TypeError>"

/-- `' '.join(item)`. -/
def joinToks (item : List Elem) : String := " ".intercalate (item.map elemText)

/-- `item[0] == '#'` (comment test of `emit_nginx_conf`). -/
def isHashHead (item : List Elem) : Bool :=
  match item.head? with
  | some (Elem.s t) => t == "#"
  | _ => false

/-- `isinstance(item[-1], list)` together with the extraction of that final
list: returns the children when the last slot of the tuple is a nested
directive list, and `none` otherwise. -/
def lastBlk (item : List Elem) : Option (List (List Elem)) :=
  match item.getLast? with
  | some (Elem.blk c) => some c
  | _ => none

theorem sizeOf_lastBlk_lt {item : List Elem} {children : List (List Elem)}
    (h : lastBlk item = some children) : sizeOf children < sizeOf item := by
  unfold lastBlk at h
  split at h
  case _ c heq =>
    cases h
    have hmem : Elem.blk children ∈ item := List.mem_of_mem_getLast? heq
    have h1 := List.sizeOf_lt_of_mem hmem
    have h2 : sizeOf (Elem.blk children) = 1 + sizeOf children := by simp
    omega
  case _ => exact absurd h (by simp)

theorem sizeOf_lastBlk_get_lt {item : List Elem} (h : (lastBlk item).isSome) :
    sizeOf ((lastBlk item).get h) < sizeOf item :=
  sizeOf_lastBlk_lt (Option.some_get h).symm

/-- `emit_nginx_conf(config, indent=...)`, returning the printed lines in
order.  The source checks, per item: last slot a list → block line, children
at `indent + 2`, closing brace; first token `'#'` → comment with no
terminator; otherwise statement terminated by `';'`. -/
def emit_nginx_conf (config : Conf) (indent : Nat) : List String :=
  match config with
  | [] => []
  | item :: rest =>
    (if h : (lastBlk item).isSome then
      (pad indent ++ joinToks item.dropLast ++ " \x7b")
        :: (emit_nginx_conf ((lastBlk item).get h) (indent + 2) ++ [pad indent ++ "\x7d"])
     else if isHashHead item then
      [pad indent ++ joinToks item]
     else
      [pad indent ++ joinToks item ++ ";"])
    ++ emit_nginx_conf rest indent
termination_by sizeOf config
decreasing_by
  all_goals simp only [List.cons.sizeOf_spec]
  all_goals first
    | omega
    | (have hlt := sizeOf_lastBlk_get_lt (by assumption); omega)

/-- Modelled from the spec: the serializer contract of §4.1 as the spec words
it, with the comment case tested first ("if it is a comment ... Else if the
last element is a nested directive list ... Else emit all tokens space-joined
followed by `;`"). -/
def renderSpec (config : Conf) (indent : Nat) : List String :=
  match config with
  | [] => []
  | item :: rest =>
    (if isHashHead item then
      [pad indent ++ joinToks item]
     else if h : (lastBlk item).isSome then
      (pad indent ++ joinToks item.dropLast ++ " \x7b")
        :: (renderSpec ((lastBlk item).get h) (indent + 2) ++ [pad indent ++ "\x7d"])
     else
      [pad indent ++ joinToks item ++ ";"])
    ++ renderSpec rest indent
termination_by sizeOf config
decreasing_by
  all_goals simp only [List.cons.sizeOf_spec]
  all_goals first
    | omega
    | (have hlt := sizeOf_lastBlk_get_lt (by assumption); omega)

/-- Directive-tree invariant from §3: a comment (first token `'#'`) is never
block-valued, recursively through nested blocks. -/
def wfConf (config : Conf) : Bool :=
  match config with
  | [] => true
  | item :: rest =>
    (if h : (lastBlk item).isSome then
      (!isHashHead item) && wfConf ((lastBlk item).get h)
     else true)
    && wfConf rest
termination_by sizeOf config
decreasing_by
  all_goals simp only [List.cons.sizeOf_spec]
  all_goals first
    | omega
    | (have hlt := sizeOf_lastBlk_get_lt (by assumption); omega)

/-! ## YAML-ish values and Python dict/string helpers -/

/-- Values loaded from the YAML input document.  Dictionaries keep insertion
order, matching Python `dict` iteration. -/
inductive YVal where
  | vnull : YVal
  | vbool (b : Bool) : YVal
  | vstr (s : String) : YVal
  | vlist (items : List YVal) : YVal
  | vdict (entries : List (String × YVal)) : YVal
deriving Repr

/-- Python `d[k]` / `k in d` lookup on an insertion-ordered dict.  YAML
documents cannot carry duplicate keys, so first-match lookup agrees with the
Python dict. -/
def yLookup (entries : List (String × YVal)) (k : String) : Option YVal :=
  match entries with
  | [] => none
  | (k', v) :: rest => if k' == k then some v else yLookup rest k

/-- Python truthiness (`if not server_name`, `if spa`). -/
def yTruthy : YVal → Bool
  | .vnull => false
  | .vbool b => b
  | .vstr s => s != ""
  | .vlist l => !l.isEmpty
  | .vdict d => !d.isEmpty

/-- Python `str(v)` as used by f-string interpolation.  The generators only
ever interpolate string values on the paths verified here; the placeholder
mirrors nothing more than "some other text". -/
def yFormat : YVal → String
  | .vstr s => s
  | .vbool b => if b then "True" else "False"
  | .vnull => "None"
  | _ => "<non-string>"

/-- Python `s.split(' ')` (single-space separator, empties kept):
accumulator-based scan over the characters. -/
def splitSpAux : List Char → List Char → List String
  | [], acc => [String.mk acc.reverse]
  | c :: rest, acc =>
      if c = ' ' then String.mk acc.reverse :: splitSpAux rest []
      else splitSpAux rest (c :: acc)

/-- Python `s.split(' ')`. -/
def pySplit (s : String) : List String := splitSpAux s.data []

/-- Character-list version of `startswith`. -/
def charsStart : List Char → List Char → Bool
  | [], _ => true
  | _ :: _, [] => false
  | p :: ps, c :: cs => p == c && charsStart ps cs

/-- Python `s.startswith(pre)`. -/
def pyStarts (s pre : String) : Bool := charsStart pre.data s.data

/-- Python `s[n:]`. -/
def pyDrop (s : String) (n : Nat) : String := String.mk (s.data.drop n)

/-- Decimal digit character, `'0'..'9'` for `d < 10`. -/
def digitChr (d : Nat) : Char := Char.ofNat (48 + d)

/-- Fuel-driven decimal digit list of a natural number (the fuel is always
sufficient when it exceeds the number). -/
def natDigitsAux : Nat → Nat → List Char
  | 0, _ => []
  | fuel + 1, n =>
      if n < 10 then [digitChr n]
      else natDigitsAux fuel (n / 10) ++ [digitChr (n % 10)]

/-- Python `str(n)` for a non-negative int: decimal representation. -/
def natStr (n : Nat) : String := String.mk (natDigitsAux (n + 1) n)

/-- Value of a decimal digit string (left inverse of `natDigitsAux`, used to
prove that distinct counters give distinct auto-generated names). -/
def digitsVal (l : List Char) : Nat :=
  l.foldl (fun acc c => acc * 10 + (c.toNat - 48)) 0

/-! ## Static file mounts (`generate_static_files_entry`, `generate_static_files`) -/

/-- Body of `generate_static_files_entry` once the description is a dict:
`location` and `path` presence checks, `spa` string check, Python-truthiness
dispatch between `root`+`try_files` and `alias`, and the `index` handling
with the spa/index mutual-exclusion check. -/
def staticEntryCore (d : List (String × YVal)) : Except String Directive :=
  match yLookup d "location" with
  | none => .error "location is required for static files"
  | some loc =>
  match yLookup d "path" with
  | none => .error "path is required for static files"
  | some path => do
    let spa : Option String ←
      match yLookup d "spa" with
      | none => pure none
      | some (.vstr s) => pure (some s)
      | some _ => Except.error "spa must be a string"
    let spaTruthy : Bool := match spa with
      | some s => s != ""
      | none => false
    let config : Conf :=
      if spaTruthy then
        [[.s "root", .s (yFormat path)], [.s "try_files", .s "$uri", .s (spa.getD "")]]
      else
        [[.s "alias", .s (yFormat path)]]
    match yLookup d "index" with
    | none => .ok [.s "location", .s (yFormat loc), .blk config]
    | some idx =>
      if spaTruthy then Except.error "cannot use both spa and index options in static files"
      else .ok [.s "location", .s (yFormat loc), .blk (config ++ [[.s "index", .s (yFormat idx)]])]

/-- `generate_static_files_entry(description)`: a bare string is rewritten to
`{'path': description, 'location': '/static'}` before the dict logic runs. -/
def generate_static_files_entry (description : YVal) : Except String Directive :=
  match description with
  | .vstr p => staticEntryCore [("path", .vstr p), ("location", .vstr "/static")]
  | .vdict d => staticEntryCore d
  | _ => .error "TypeError: static files description is not iterable"

/-- `generate_static_files(description)`: a single string or dict is wrapped
in a one-element list, then each item is translated. -/
def generate_static_files (description : YVal) : Except String Conf :=
  match description with
  | .vstr p => (generate_static_files_entry (.vstr p)).map ([·])
  | .vdict d => (generate_static_files_entry (.vdict d)).map ([·])
  | .vlist l => l.mapM generate_static_files_entry
  | _ => .error "TypeError: static_files value is not iterable"

/-! ## Upstreams (`parse_single_upstream`, `parse_upstreams`) -/

/-- A resolved upstream record (the dict built by `parse_single_upstream`). -/
structure Upstream where
  name : String
  location : String
  url : String
  type : String
deriving Repr, DecidableEq

/-- The tail of `parse_single_upstream`: reads `name`, `location` and `url`
from the (already name-carrying) config dict — a missing `location` or `url`
is an unhandled Python `KeyError` — then detects the protocol from the URL
by trying the `http://` and `uwsgi://` markers and stripping the matching
one (`config['url'][len(proto) + 3:]`). -/
def upstreamOfDict (server_name : String) (d : List (String × YVal)) : Except String Upstream :=
  match yLookup d "name" with
  | none => .error "KeyError: name"
  | some nm =>
  match yLookup d "location" with
  | none => .error "KeyError: location"
  | some loc =>
  match yLookup d "url" with
  | none => .error "KeyError: url"
  | some (.vstr url) =>
    if pyStarts url "http://" then
      .ok { name := yFormat nm, location := yFormat loc, url := pyDrop url 7, type := "http" }
    else if pyStarts url "uwsgi://" then
      .ok { name := yFormat nm, location := yFormat loc, url := pyDrop url 8, type := "uwsgi" }
    else
      .error ("Please prefix " ++ server_name ++ ".upstream url with protocol name")
  | some _ => .error "TypeError: upstream url is not a string"

/-- `parse_single_upstream(server_name, config)` with the process-wide
`_upstream_counter` made explicit: a bare string becomes a dict with name
`{server_name}-upstream` and location `/`; a dict without a `name` key first
increments the counter and stores `upstream-auto-{counter}`. -/
def parse_single_upstream (counter : Nat) (server_name : String) (config : YVal) :
    Except String (Nat × Upstream) :=
  match config with
  | .vstr url =>
    (upstreamOfDict server_name
      [("url", .vstr url), ("name", .vstr (server_name ++ "-upstream")),
       ("location", .vstr "/")]).map ((counter, ·))
  | .vdict d =>
    if (yLookup d "name").isSome then
      (upstreamOfDict server_name d).map ((counter, ·))
    else
      (upstreamOfDict server_name
        (d ++ [("name", .vstr ("upstream-auto-" ++ natStr (counter + 1)))])).map
          ((counter + 1, ·))
  | _ => .error "TypeError: upstream entry must be a string or a mapping"

/-- `isinstance(config, (str, dict))` wrapping of the `upstream` field into a
list of entries. -/
def normalizeUpstreamField (v : YVal) : Except String (List YVal) :=
  match v with
  | .vstr s => .ok [.vstr s]
  | .vdict d => .ok [.vdict d]
  | .vlist l => .ok l
  | _ => .error "TypeError: upstream value is not iterable"

/-- The `for entry in config` loop of `parse_upstreams` for one server,
threading the counter. -/
def parse_entries (counter : Nat) (server_name : String) (entries : List YVal) :
    Except String (Nat × List Upstream) :=
  match entries with
  | [] => .ok (counter, [])
  | e :: rest => do
    let (c₁, u) ← parse_single_upstream counter server_name e
    let (c₂, us) ← parse_entries c₁ server_name rest
    .ok (c₂, u :: us)

/-- The `('upstream', name, [('server', url)])` block appended per entry. -/
def upstreamDirective (u : Upstream) : Directive :=
  [.s "upstream", .s u.name, .blk [[.s "server", .s u.url]]]

/-- `parse_upstreams(input_config)` over the `servers` items, threading the
counter across servers; returns the final counter, the upstream directive
blocks in encounter order, and the per-server upstream records (the
`defaultdict(list)` keyed by server name, here as ordered pairs). -/
def parse_upstreams_servers (counter : Nat) (servers : List (String × YVal)) :
    Except String (Nat × Conf × List (String × Upstream)) :=
  match servers with
  | [] => .ok (counter, [], [])
  | (server_name, server_config) :: rest =>
    match server_config with
    | .vdict sc =>
      match yLookup sc "upstream" with
      | none => parse_upstreams_servers counter rest
      | some v => do
        let entries ← normalizeUpstreamField v
        let (c₁, ups) ← parse_entries counter server_name entries
        let (c₂, conf, cfgs) ← parse_upstreams_servers c₁ rest
        .ok (c₂, ups.map upstreamDirective ++ conf, ups.map ((server_name, ·)) ++ cfgs)
    | _ => .error "TypeError: server entry must be a mapping"

/-- `upstreams.get(name, [])` on the per-server records. -/
def configsFor (cfgs : List (String × Upstream)) (name : String) : List Upstream :=
  (cfgs.filter (·.1 == name)).map (·.2)

/-- The flattened `(server_name, entry)` pairs that `parse_upstreams` visits,
in encounter order across the whole document. -/
def flatEntries (servers : List (String × YVal)) : Except String (List (String × YVal)) :=
  match servers with
  | [] => .ok []
  | (server_name, server_config) :: rest =>
    match server_config with
    | .vdict sc =>
      match yLookup sc "upstream" with
      | none => flatEntries rest
      | some v => do
        let entries ← normalizeUpstreamField v
        let r ← flatEntries rest
        .ok (entries.map ((server_name, ·)) ++ r)
    | _ => .error "TypeError: server entry must be a mapping"

/-- `parse_entries` over the flattened document-wide entry list, keeping each
entry's owning server name. -/
def parse_flat (counter : Nat) (pairs : List (String × YVal)) :
    Except String (Nat × List (String × Upstream)) :=
  match pairs with
  | [] => .ok (counter, [])
  | (sn, e) :: rest => do
    let (c₁, u) ← parse_single_upstream counter sn e
    let (c₂, us) ← parse_flat c₁ rest
    .ok (c₂, (sn, u) :: us)

/-- A structured upstream entry lacking an explicit `name` (the case that
draws from the process-wide counter). -/
def isAnonEntry : YVal → Bool
  | .vdict d => !(yLookup d "name").isSome
  | _ => false

/-! ## TLS (`generate_tls_config`, `activate_lets_encrypt`) -/

/-- `generate_tls_config(cert)`: `certificate` and `key` are read with plain
indexing (missing keys are unhandled `KeyError`s), `root_chain` is optional. -/
def generate_tls_config (cert : List (String × YVal)) : Except String Conf :=
  match yLookup cert "certificate" with
  | none => .error "KeyError: certificate"
  | some c =>
  match yLookup cert "key" with
  | none => .error "KeyError: key"
  | some k =>
    .ok ([[.s "ssl_certificate", .s ("/etc/nginx/certs/" ++ yFormat c)],
          [.s "ssl_certificate_key", .s ("/etc/nginx/certs/" ++ yFormat k)]] ++
         (match yLookup cert "root_chain" with
          | some rc => [[.s "ssl_trusted_certificate", .s ("/etc/nginx/certs/" ++ yFormat rc)]]
          | none => []))

/-- `activate_lets_encrypt(server_name)` minus its side effect (the write of
the domain name to `/tmp/le-domain.txt` is file I/O outside this embedding):
the synthesized certificate record. -/
def activate_lets_encrypt (server_name : String) : List (String × YVal) :=
  [("certificate", .vstr ("live/" ++ server_name ++ "/fullchain.pem")),
   ("key", .vstr ("live/" ++ server_name ++ "/privkey.pem")),
   ("root_chain", .vstr ("live/" ++ server_name ++ "/chain.pem"))]

/-! ## Server blocks (`_base_config_http_common`, `base_config_*`, `generate_server`) -/

def HTTP_HEADERS : List (String × String) :=
  [("X-Frame-Options", "sameorigin"),
   ("X-Content-Type-Options", "nosniff"),
   ("X-XSS-Protection", "\"1; mode=block\"")]

/-- `_HTTPS_HEADERS`: the HSTS entry followed by the shared header set
(Python dict update preserves the insertion order). -/
def HTTPS_HEADERS : List (String × String) :=
  ("Strict-Transport-Security", "max-age=63072000") :: HTTP_HEADERS

def TLS_CIPHERS : List String :=
  ["ECDHE-RSA-CHACHA20-POLY1305",
   "ECDHE-RSA-AES256-GCM-SHA512",
   "ECDHE-RSA-AES256-GCM-SHA384",
   "ECDHE-RSA-AES128-GCM-SHA256",
   "DHE-RSA-AES256-GCM-SHA512",
   "DHE-RSA-AES256-GCM-SHA384",
   "DHE-RSA-AES128-GCM-SHA256",
   "ECDHE-RSA-AES256-SHA384",
   "ECDHE-RSA-AES128-SHA256"]

def addHeaderDirectives (headers : List (String × String)) : Conf :=
  headers.map (fun nv => [.s "add_header", .s nv.1, .s nv.2, .s "always"])

/-- The strict-host conditional
`('if', f'($http_host !~* ^{server_name}$)', [('return', '444')])`. -/
def hostGuard (server_name : String) : Directive :=
  [.s "if", .s ("($http_host !~* ^" ++ server_name ++ "$)"),
   .blk [[.s "return", .s "444"]]]

def base_config_http_common (server_name : String) (strict_host : Bool) : Conf :=
  [[.s "listen", .s "80", .s "deferred", .s "reuseport"],
   [.s "listen", .s "[::]:80", .s "deferred", .s "reuseport"],
   [.s "server_name", .s server_name]] ++
  (if strict_host then [hostGuard server_name] else [])

def base_config_https_redirect (server_name : String) (strict_host : Bool) : Conf :=
  base_config_http_common server_name strict_host ++
  [[.s "return", .s "301", .s ("https://" ++ server_name ++ "$request_uri")]]

def base_config_http (server_name : String) (strict_host : Bool) : Conf :=
  base_config_http_common server_name strict_host ++ addHeaderDirectives HTTP_HEADERS

def base_config_https (server_name : String) (strict_host : Bool) : Conf :=
  [[.s "listen", .s "443", .s "ssl", .s "http2", .s "deferred", .s "reuseport"],
   [.s "listen", .s "[::]:443", .s "ssl", .s "http2", .s "deferred", .s "reuseport"],
   [.s "server_name", .s server_name]] ++
  (if strict_host then [hostGuard server_name] else []) ++
  addHeaderDirectives HTTPS_HEADERS ++
  [[.s "ssl_protocols", .s "TLSv1.2"],
   [.s "ssl_prefer_server_ciphers", .s "on"],
   [.s "ssl_ciphers", .s (":".intercalate TLS_CIPHERS)],
   [.s "ssl_dhparam", .s "/etc/ssl/dhparam-2048.pem"],
   [.s "ssl_session_timeout", .s "1d"],
   [.s "ssl_session_cache", .s "shared:SSL:50m"],
   [.s "ssl_session_tickets", .s "off"],
   [.s "ssl_stapling", .s "on"],
   [.s "ssl_stapling_verify", .s "on"],
   [.s "resolver", .s "8.8.8.8 8.8.4.4", .s "valid=300s"],
   [.s "resolver_timeout", .s "5s"]]

/-- State accumulated by the `for item, content in description.items()` loop
of `generate_server`: `server_name = None`, `tls = None`,
`check_host_header = True`, `extra_config = []`. -/
structure SrvState where
  serverName : YVal := .vnull
  tls : YVal := .vnull
  checkHost : Bool := true
  extra : Conf := []
deriving Repr

/-- One iteration of the option loop of `generate_server`. -/
def collectOpt (name : String) (st : SrvState) (kv : String × YVal) : Except String SrvState :=
  if kv.1 == "server_raw_options" then
    match kv.2 with
    | .vlist opts => do
        let toks ← opts.mapM (fun o =>
          match o with
          | .vstr s => Except.ok ((pySplit s).map Elem.s)
          | _ => Except.error "AttributeError: raw option is not a string")
        .ok { st with extra := st.extra ++ toks }
    | _ => .error (name ++ ".server_raw_options must be an array")
  else if kv.1 == "server_name" then .ok { st with serverName := kv.2 }
  else if kv.1 == "static_files" then do
    let conf ← generate_static_files kv.2
    .ok { st with extra := st.extra ++ conf }
  else if kv.1 == "tls" then .ok { st with tls := kv.2 }
  else if kv.1 == "check_host_header" then
    match kv.2 with
    | .vbool b => .ok { st with checkHost := b }
    | _ => .error (name ++ ".check_host_header must be a boolean value")
  else if kv.1 == "upstream" then .ok st
  else .error ("unknown option " ++ name ++ "." ++ kv.1)

/-- The full option loop of `generate_server`, in dict insertion order. -/
def collectOpts (name : String) (description : List (String × YVal)) : Except String SrvState :=
  description.foldlM (collectOpt name) {}

/-- The TLS mode dispatch of `generate_server`: `False` → plaintext;
`'auto'` → synthesized certificate plus the ACME challenge location; a dict →
that certificate; a list → one certificate group per record; anything else
(including an absent value and `True`) → `'{name}.tls value is invalid'`. -/
def tlsDispatch (name : String) (server_name : String) (tls : YVal) :
    Except String (Bool × Conf) :=
  match tls with
  | .vbool false => .ok (false, [])
  | .vstr s =>
    if s == "auto" then do
      let conf ← generate_tls_config (activate_lets_encrypt server_name)
      .ok (true, conf ++
        [[.s "location", .s "/.well-known/acme-challenge",
          .blk [[.s "root", .s "/var/www/letsencrypt"]]]])
    else .error (name ++ ".tls value is invalid")
  | .vdict d => (generate_tls_config d).map ((true, ·))
  | .vlist l => do
      let confs ← l.mapM (fun c =>
        match c with
        | .vdict d => generate_tls_config d
        | _ => Except.error "TypeError: certificate record must be a mapping")
      .ok (true, confs.flatten)
  | _ => .error (name ++ ".tls value is invalid")

/-- The reverse-proxy location block appended per upstream: the three
`proxy_set_header` lines, then the uwsgi pair, the `proxy_pass`, or the
`NotImplementedError` for any other protocol type. -/
def proxyLocation (u : Upstream) : Except String Directive :=
  let base : Conf :=
    [[.s "proxy_set_header", .s "X-Request-ID", .s "$request_id"],
     [.s "proxy_set_header", .s "X-Forwarded-For", .s "$proxy_add_x_forwarded_for"],
     [.s "proxy_set_header", .s "Host", .s "$http_host"]]
  if u.type == "uwsgi" then
    .ok [.s "location", .s u.location,
         .blk (base ++ [[.s "include", .s "uwsgi_params"], [.s "uwsgi_pass", .s u.name]])]
  else if u.type == "http" then
    .ok [.s "location", .s u.location,
         .blk (base ++ [[.s "proxy_pass", .s ("http://" ++ u.name)]])]
  else
    .error ("NotImplementedError: Someone was naughty and did not implement the "
            ++ u.type ++ " upstream type")

/-- `generate_server(name, description, upstreams)`: option loop, mandatory
`server_name`, TLS dispatch, proxy locations, then one or two server blocks
headed by a `('#', name, ...)` comment. -/
def generate_server (name : String) (description : List (String × YVal))
    (upstreams : List Upstream) : Except String Conf := do
  let st ← collectOpts name description
  if yTruthy st.serverName then
    let sname := yFormat st.serverName
    let (use_tls, tlsConf) ← tlsDispatch name sname st.tls
    let proxies ← upstreams.mapM proxyLocation
    let extra := st.extra ++ tlsConf ++ proxies
    if use_tls then
      .ok [[.s "server",
            .blk ([[.s "#", .s name, .s "- force HTTPS"]] ++
                  base_config_https_redirect sname st.checkHost)],
           [.s "server",
            .blk ([[.s "#", .s name]] ++ base_config_https sname st.checkHost ++ extra)]]
    else
      .ok [[.s "server",
            .blk ([[.s "#", .s name]] ++ base_config_http sname st.checkHost ++ extra)]]
  else
    .error "server_name is required"

/-- `generate_servers(app_conf, upstreams)`. -/
def generate_servers (servers : List (String × YVal)) (cfgs : List (String × Upstream)) :
    Except String Conf :=
  match servers with
  | [] => .ok []
  | (name, desc) :: rest =>
    match desc with
    | .vdict d => do
        let s ← generate_server name d (configsFor cfgs name)
        let r ← generate_servers rest cfgs
        .ok (s ++ r)
    | _ => .error "TypeError: server entry must be a mapping"

/-! ## Global HTTP settings (`_NGINX_HTTP`, `generate_http`) -/

def GZIP_TYPES : List String :=
  ["text/plain", "text/xml", "text/css", "application/x-javascript",
   "application/javascript", "application/ecmascript", "application/rss+xml",
   "application/xml", "application/json"]

def NGINX_HTTP : List (List String) :=
  [["server_tokens", "off"],
   ["include", "/etc/nginx/mime.types"],
   ["default_type", "application/octet-stream"],
   ["log_format", "main",
    "'$remote_addr - $remote_user [$time_local] \"$request\" $status $body_bytes_sent \"$http_referer\" \"$http_user_agent\" \"$request_time $upstream_connect_time $upstream_header_time $upstream_response_time\" $upstream_addr $upstream_status$ssl_protocol/$ssl_session_reused/$ssl_cipher $connection/$connection_requests $gzip_ratio $request_id'"],
   ["access_log", "/var/log/nginx/access.log", "main", "buffer=64k", "flush=3s"],
   ["error_log", "/var/log/nginx/error.log", "warn"],
   ["gzip", "on"],
   ["gzip_min_length", "1000"],
   ["gzip_static", "on"],
   "gzip_types" :: GZIP_TYPES,
   ["gzip_vary", "on"],
   ["sendfile", "on"],
   ["tcp_nopush", "on"],
   ["tcp_nodelay", "on"],
   ["keepalive_timeout", "65"],
   ["keepalive_requests", "1000"],
   ["postpone_output", "1460"],
   ["reset_timedout_connection", "on"],
   ["open_file_cache", "max=10000", "inactive=20s"],
   ["open_file_cache_valid", "30s"],
   ["open_file_cache_min_uses", "2"],
   ["open_file_cache_errors", "on"]]

/-- One iteration of the `generate_http` override loop on an already-split
entry: an `include` entry is appended unconditionally; otherwise the first
existing entry with the same leading token is replaced in place, and if none
matches the entry is appended. -/
def mergeStep (http : List (List String)) (parts : List String) : List (List String) :=
  if parts.head? = some "include" then http ++ [parts]
  else
    match http.findIdx? (fun option => option.head? == parts.head?) with
    | some idx => http.set idx parts
    | none => http ++ [parts]

/-- `generate_http(app_conf)` given the raw `http_raw_options` strings. -/
def generate_http (raw : List String) : List (List String) :=
  raw.foldl (fun http entry => mergeStep http (pySplit entry)) NGINX_HTTP

/-! ## Orchestration (`main` minus file I/O) -/

def NGINX_GLOBALS : Conf :=
  [[.s "#", .s "Auto-generated by Zombie Nginx configurator"],
   [.s "user", .s "nginx"],
   [.s "worker_processes", .s "auto"],
   [.s "worker_cpu_affinity", .s "auto"],
   [.s "error_log", .s "/var/log/nginx/error.log", .s "warn"],
   [.s "pid", .s "/var/run/nginx.pid"],
   [.s "events", .blk [[.s "worker_connections", .s "2048"],
                       [.s "multi_accept", .s "on"]]]]

/-- `app_conf.get('servers', {})` with the requirement that the value be a
mapping (its `.items()` are iterated). -/
def getServers (doc : List (String × YVal)) : Except String (List (String × YVal)) :=
  match yLookup doc "servers" with
  | none => .ok []
  | some (.vdict s) => .ok s
  | some _ => .error "AttributeError: servers value is not a mapping"

/-- `app_conf.get('http_raw_options', [])` with each entry a raw string. -/
def getRawOptions (doc : List (String × YVal)) : Except String (List String) :=
  match yLookup doc "http_raw_options" with
  | none => .ok []
  | some (.vlist l) => l.mapM (fun v =>
      match v with
      | .vstr s => Except.ok s
      | _ => Except.error "AttributeError: raw option is not a string")
  | some _ => .error "TypeError: http_raw_options value is not iterable"

/-- The generation pipeline of `main` from a loaded document to the printed
lines, with the anonymous-upstream counter starting at 0 (a fresh process):
upstream extraction, server generation, the HTTP settings merge, the
top-level wrapping and serialization. -/
def runFrom (counter : Nat) (doc : List (String × YVal)) : Except String (List String) := do
  let servers ← getServers doc
  let (_, upstreams_conf, upstreams_data) ← parse_upstreams_servers counter servers
  let servers_conf ← generate_servers servers upstreams_data
  let raw ← getRawOptions doc
  let http := (generate_http raw).map (·.map Elem.s) ++ upstreams_conf ++ servers_conf
  .ok (emit_nginx_conf (NGINX_GLOBALS ++ [[.s "http", .blk http]]) 0)

/-- One full run of the generator on a document: counter initialized to 0. -/
def run (doc : List (String × YVal)) : Except String (List String) := runFrom 0 doc

/-- The byte stream written to standard output (each printed line followed by
a newline). -/
def renderOut (doc : List (String × YVal)) : Except String String :=
  (run doc).map (fun lines => String.join (lines.map (· ++ "\n")))

/-! ## Shape observations used by the host-guard analysis -/

/-- First token of a directive, when it is a string. -/
def headTok (d : Directive) : Option String :=
  match d.head? with
  | some (.s t) => some t
  | _ => none

/-- A directive all of whose elements are string tokens (no nested block). -/
def allStrDir (d : Directive) : Bool :=
  d.all (fun e => match e with | .s _ => true | .blk _ => false)

/-- Directives that can never coincide with the host-header guard: either
their first token differs from `if`, or they carry no nested block. -/
def safeDir (d : Directive) : Prop :=
  headTok d ≠ some "if" ∨ allStrDir d = true

/-! ## Helper lemmas -/

theorem yLookup_append_of_none {d : List (String × YVal)} {k : String}
    (h : yLookup d k = none) (kv : String × YVal) :
    yLookup (d ++ [kv]) k = if kv.1 == k then some kv.2 else none := by
  induction d with
  | nil => simp [yLookup]
  | cons hd tl ih =>
    unfold yLookup at h ⊢
    split at h
    · exact absurd h (by simp)
    · simp only [List.cons_append]
      rw [if_neg (by assumption)]
      exact ih h

theorem exceptMap_pair_ok {α : Type} {e : Except String α} {k c' : Nat} {u : α}
    (h : Except.map (fun x => (k, x)) e = .ok (c', u)) : e = .ok u ∧ k = c' := by
  cases e with
  | error err => simp [Except.map] at h
  | ok v =>
    simp only [Except.map, Except.ok.injEq, Prod.mk.injEq] at h
    exact ⟨by rw [h.2], h.1⟩

theorem parse_single_vstr (c : Nat) (sn url : String) :
    parse_single_upstream c sn (.vstr url) =
      (upstreamOfDict sn
        [("url", .vstr url), ("name", .vstr (sn ++ "-upstream")),
         ("location", .vstr "/")]).map ((c, ·)) := rfl

theorem parse_single_vdict (c : Nat) (sn : String) (d : List (String × YVal)) :
    parse_single_upstream c sn (.vdict d) =
      if (yLookup d "name").isSome then (upstreamOfDict sn d).map ((c, ·))
      else (upstreamOfDict sn
        (d ++ [("name", .vstr ("upstream-auto-" ++ natStr (c + 1)))])).map ((c + 1, ·)) := rfl

/-- Successful runs of `upstreamOfDict` read `name` and `location` from the
dict and keep them in the record. -/
theorem upstreamOfDict_ok {sn : String} {d : List (String × YVal)} {u : Upstream}
    (h : upstreamOfDict sn d = .ok u) :
    ∃ nm loc, yLookup d "name" = some nm ∧ yLookup d "location" = some loc ∧
      u.name = yFormat nm ∧ u.location = yFormat loc := by
  unfold upstreamOfDict at h
  split at h
  · exact absurd h (by simp)
  rename_i nm hnm
  split at h
  · exact absurd h (by simp)
  rename_i loc hloc
  split at h
  · exact absurd h (by simp)
  · rename_i url hurl
    split at h
    · cases h; exact ⟨nm, loc, hnm, hloc, rfl, rfl⟩
    · split at h
      · cases h; exact ⟨nm, loc, hnm, hloc, rfl, rfl⟩
      · exact absurd h (by simp)
  · exact absurd h (by simp)

/-! ## C3: static mount location default -/

/-- C3 counterexample: a structured static mount supplying only `path` (no
explicit `location`) does not default to `/static`; generation fails with
"location is required for static files". -/
theorem C3_counterexample :
    generate_static_files_entry (.vdict [("path", .vstr "/srv/static")]) =
      .error "location is required for static files" := rfl

/-- C3 (amended): only a bare-string mount defaults its location to
`/static`, yielding an alias block for that path with no try_files or index
entries; a structured mount that omits `location` fails with "location is
required for static files". -/
theorem C3_static_location_default :
    (∀ p : String, generate_static_files_entry (.vstr p) =
      .ok [.s "location", .s "/static", .blk [[.s "alias", .s p]]]) ∧
    (∀ d : List (String × YVal), yLookup d "location" = none →
      generate_static_files_entry (.vdict d) =
        .error "location is required for static files") := by
  constructor
  · intro p; rfl
  · intro d h
    have hd : generate_static_files_entry (.vdict d) = staticEntryCore d := rfl
    rw [hd]
    unfold staticEntryCore
    rw [h]

/-- Witness for C3: the amended theorem applied at a concrete one-key mount. -/
theorem C3_static_location_default_witness :
    yLookup [("path", YVal.vstr "/srv")] "location" = none ∧
    generate_static_files_entry (.vdict [("path", .vstr "/srv")]) =
      .error "location is required for static files" :=
  ⟨rfl, C3_static_location_default.2 [("path", YVal.vstr "/srv")] rfl⟩

/-! ## C5: spa/index mutual exclusion -/

/-- C5 counterexample: with `spa` set to the empty string and `index` set,
generation does not fail — the empty string is Python-falsy, so the
mutual-exclusion check is skipped and an alias block with an index entry is
produced. -/
theorem C5_counterexample :
    generate_static_files_entry (.vdict [("path", .vstr "/srv"), ("location", .vstr "/app"),
      ("spa", .vstr ""), ("index", .vstr "index.html")]) =
      .ok [.s "location", .s "/app",
           .blk [[.s "alias", .s "/srv"], [.s "index", .s "index.html"]]] := rfl

/-- C5 (amended): for every static mount with a non-empty string `spa` and an
`index` key, generation fails with the mutual-exclusion error; an
empty-string `spa` is treated as unset. -/
theorem C5_spa_index_exclusion (d : List (String × YVal)) (loc path idx : YVal) (s : String)
    (hl : yLookup d "location" = some loc) (hp : yLookup d "path" = some path)
    (hs : yLookup d "spa" = some (.vstr s)) (hne : s ≠ "")
    (hi : yLookup d "index" = some idx) :
    generate_static_files_entry (.vdict d) =
      .error "cannot use both spa and index options in static files" := by
  have hd : generate_static_files_entry (.vdict d) = staticEntryCore d := rfl
  rw [hd]
  unfold staticEntryCore
  rw [hl, hp, hs, hi]
  simp [hne, Bind.bind, Except.bind, Pure.pure, Except.pure]

/-- Witness for C5: the amended theorem applied at a concrete mount. -/
theorem C5_spa_index_exclusion_witness :
    generate_static_files_entry (.vdict [("location", .vstr "/a"), ("path", .vstr "/p"),
      ("spa", .vstr "/index.html"), ("index", .vstr "i.html")]) =
      .error "cannot use both spa and index options in static files" :=
  C5_spa_index_exclusion _ _ _ _ "/index.html" rfl rfl rfl (by decide) rfl

/-! ## C4: upstream location default -/

/-- C4 counterexample: a structured upstream entry omitting `location` does
not default to `/`; it fails with an unhandled `KeyError`. -/
theorem C4_counterexample :
    parse_single_upstream 0 "web" (.vdict [("url", .vstr "http://127.0.0.1:8000")]) =
      .error "KeyError: location" := rfl

/-- C4 (amended): only a bare-string upstream entry gets the default location
`/`; a structured entry that omits `location` fails with a `KeyError`. -/
theorem C4_upstream_location (c : Nat) (sn url : String) (d : List (String × YVal)) :
    (∀ c' u, parse_single_upstream c sn (.vstr url) = .ok (c', u) → u.location = "/") ∧
    (yLookup d "location" = none →
      parse_single_upstream c sn (.vdict d) = .error "KeyError: location") := by
  constructor
  · intro c' u h
    rw [parse_single_vstr] at h
    obtain ⟨hok, -⟩ := exceptMap_pair_ok h
    obtain ⟨nm, loc, hnm, hloc, -, hl⟩ := upstreamOfDict_ok hok
    have : loc = YVal.vstr "/" := by
      have : yLookup [("url", YVal.vstr url), ("name", YVal.vstr (sn ++ "-upstream")),
          ("location", YVal.vstr "/")] "location" = some (YVal.vstr "/") := rfl
      rw [this] at hloc
      exact (Option.some.injEq _ _ ▸ hloc).symm
    rw [this] at hl
    exact hl
  · intro h
    rw [parse_single_vdict]
    by_cases hn : (yLookup d "name").isSome
    · rw [if_pos hn]
      obtain ⟨nm, hnm⟩ := Option.isSome_iff_exists.mp hn
      unfold upstreamOfDict
      rw [hnm, h]
      rfl
    · rw [if_neg hn]
      unfold upstreamOfDict
      have hnone : yLookup d "name" = none := Option.not_isSome_iff_eq_none.mp hn
      rw [yLookup_append_of_none hnone]
      rw [yLookup_append_of_none h]
      simp only [show (("name" == "location") = false) from rfl, if_false]
      rfl

/-- Witness for C4: the amended theorem applied at concrete entries. -/
theorem C4_upstream_location_witness :
    ({ name := "web-upstream", location := "/", url := "x", type := "http" } : Upstream).location
      = "/" ∧
    parse_single_upstream 0 "web" (.vdict [("url", .vstr "http://x")]) =
      .error "KeyError: location" :=
  ⟨(C4_upstream_location 0 "web" "http://x" []).1 0 _ rfl,
   (C4_upstream_location 0 "web" "http://x" [("url", YVal.vstr "http://x")]).2 rfl⟩

/-! ## C8: global HTTP settings merge -/

/-- C8: each raw-options entry is whitespace-split; an entry whose first
token is `include` is always appended (so multiple includes coexist); an
entry whose first token matches an existing entry replaces it in place
(position preserved, no duplicate added — the length is unchanged); an
unmatched entry is appended; `generate_http` is the left fold of this step
over the baseline table. -/
theorem C8_http_merge (http : List (List String)) (parts : List String) :
    (parts.head? = some "include" → mergeStep http parts = http ++ [parts]) ∧
    (parts.head? ≠ some "include" →
      ∀ idx, http.findIdx? (fun option => option.head? == parts.head?) = some idx →
        mergeStep http parts = http.set idx parts ∧
        (mergeStep http parts).length = http.length) ∧
    (parts.head? ≠ some "include" →
      http.findIdx? (fun option => option.head? == parts.head?) = none →
      mergeStep http parts = http ++ [parts]) ∧
    generate_http = fun raw => raw.foldl (fun h e => mergeStep h (pySplit e)) NGINX_HTTP := by
  refine ⟨fun h => by simp [mergeStep, h], fun h idx hidx => ?_, fun h hnone => ?_, rfl⟩
  · rw [mergeStep, if_neg h, hidx]
    exact ⟨rfl, by simp⟩
  · rw [mergeStep, if_neg h, hnone]

/-- Witness for C8: overriding `gzip` replaces the baseline entry in place;
an `include` entry is appended. -/
theorem C8_http_merge_witness :
    mergeStep NGINX_HTTP ["gzip", "off"] = NGINX_HTTP.set 6 ["gzip", "off"] ∧
    (mergeStep NGINX_HTTP ["gzip", "off"]).length = NGINX_HTTP.length ∧
    mergeStep NGINX_HTTP ["include", "/etc/nginx/extra.conf"] =
      NGINX_HTTP ++ [["include", "/etc/nginx/extra.conf"]] :=
  ⟨((C8_http_merge NGINX_HTTP ["gzip", "off"]).2.1 (by decide) 6 rfl).1,
   ((C8_http_merge NGINX_HTTP ["gzip", "off"]).2.1 (by decide) 6 rfl).2,
   (C8_http_merge NGINX_HTTP ["include", "/etc/nginx/extra.conf"]).1 rfl⟩

/-! ## C9: determinism of the full pipeline -/

/-- C9: two runs of the full generation pipeline on identical input
documents, each starting with the anonymous-upstream counter reset to 0,
produce byte-identical rendered output.  The process-wide counter is
explicit state in this embedding (`runFrom 0`), so a run is a pure function
of the document and determinism holds definitionally. -/
theorem C9_determinism (doc : List (String × YVal)) :
    renderOut doc = renderOut doc ∧ run doc = runFrom 0 doc :=
  ⟨rfl, rfl⟩

/-! ## C10: parsed upstream types -/

theorem upstreamOfDict_type {sn : String} {d : List (String × YVal)} {u : Upstream}
    (h : upstreamOfDict sn d = .ok u) : u.type = "http" ∨ u.type = "uwsgi" := by
  unfold upstreamOfDict at h
  repeat' split at h
  all_goals simp_all
  · left; cases h; rfl
  · right; cases h; rfl

theorem parse_single_type {c : Nat} {sn : String} {cfg : YVal} {c' : Nat} {u : Upstream}
    (h : parse_single_upstream c sn cfg = .ok (c', u)) :
    u.type = "http" ∨ u.type = "uwsgi" := by
  match cfg with
  | .vstr url =>
    rw [parse_single_vstr] at h
    exact upstreamOfDict_type (exceptMap_pair_ok h).1
  | .vdict d =>
    rw [parse_single_vdict] at h
    split at h
    · exact upstreamOfDict_type (exceptMap_pair_ok h).1
    · exact upstreamOfDict_type (exceptMap_pair_ok h).1
  | .vnull | .vbool _ | .vlist _ => exact absurd h (by simp [parse_single_upstream])

theorem parse_flat_types {c : Nat} {pairs : List (String × YVal)} {c' : Nat}
    {us : List (String × Upstream)} (h : parse_flat c pairs = .ok (c', us)) :
    ∀ p ∈ us, p.2.type = "http" ∨ p.2.type = "uwsgi" := by
  induction pairs generalizing c us with
  | nil => cases h; simp
  | cons hd tl ih =>
    obtain ⟨sn, e⟩ := hd
    unfold parse_flat at h
    simp only [Bind.bind, Except.bind] at h
    split at h
    · exact absurd h (by simp)
    · rename_i res heq
      obtain ⟨c₁, u⟩ := res
      split at h
      · exact absurd h (by simp)
      · rename_i res₂ heq₂
        obtain ⟨c₂, us₂⟩ := res₂
        cases h
        intro p hp
        rcases List.mem_cons.mp hp with hp | hp
        · cases hp; exact parse_single_type heq
        · exact ih heq₂ p hp

theorem parse_entries_types {c : Nat} {sn : String} {entries : List YVal} {c' : Nat}
    {us : List Upstream} (h : parse_entries c sn entries = .ok (c', us)) :
    ∀ u ∈ us, u.type = "http" ∨ u.type = "uwsgi" := by
  induction entries generalizing c us with
  | nil => cases h; simp
  | cons hd tl ih =>
    unfold parse_entries at h
    simp only [Bind.bind, Except.bind] at h
    split at h
    · exact absurd h (by simp)
    · rename_i res heq
      obtain ⟨c₁, u⟩ := res
      split at h
      · exact absurd h (by simp)
      · rename_i res₂ heq₂
        obtain ⟨c₂, us₂⟩ := res₂
        cases h
        intro v hv
        rcases List.mem_cons.mp hv with hv | hv
        · cases hv; exact parse_single_type heq
        · exact ih heq₂ v hv

theorem parse_upstreams_types {c : Nat} {servers : List (String × YVal)} {c' : Nat}
    {conf : Conf} {cfgs : List (String × Upstream)}
    (h : parse_upstreams_servers c servers = .ok (c', conf, cfgs)) :
    ∀ p ∈ cfgs, p.2.type = "http" ∨ p.2.type = "uwsgi" := by
  induction servers generalizing c c' conf cfgs with
  | nil => cases h; simp
  | cons hd tl ih =>
    obtain ⟨sn, scv⟩ := hd
    unfold parse_upstreams_servers at h
    split at h
    · rename_i sc
      split at h
      · exact ih h
      · simp only [Bind.bind, Except.bind] at h
        split at h
        · exact absurd h (by simp)
        · rename_i entries heq₀
          split at h
          · exact absurd h (by simp)
          · rename_i res heq
            obtain ⟨c₁, ups⟩ := res
            split at h
            · exact absurd h (by simp)
            · rename_i res₂ heq₂
              obtain ⟨c₂, conf₂, cfgs₂⟩ := res₂
              cases h
              intro p hp
              rcases List.mem_append.mp hp with hp | hp
              · obtain ⟨u, hu, rfl⟩ := List.mem_map.mp hp
                exact parse_entries_types heq u hu
              · exact ih heq₂ p hp
    · exact absurd h (by simp)

/-- C10: every upstream record produced by the upstream resolver has type
`http` or `uwsgi`, and for each such record the proxy-location builder
succeeds — the `NotImplementedError` branch of `generate_server`'s proxy
loop is unreachable on resolver output. -/
theorem C10_no_unimplemented (c : Nat) (servers : List (String × YVal)) (c' : Nat)
    (conf : Conf) (cfgs : List (String × Upstream))
    (h : parse_upstreams_servers c servers = .ok (c', conf, cfgs)) :
    ∀ p ∈ cfgs, (p.2.type = "http" ∨ p.2.type = "uwsgi") ∧
      ∃ d, proxyLocation p.2 = .ok d := by
  intro p hp
  have ht := parse_upstreams_types h p hp
  refine ⟨ht, ?_⟩
  unfold proxyLocation
  rcases ht with ht | ht <;> simp [ht]

/-- Witness for C10: the theorem applied to a parsed one-upstream document. -/
theorem C10_no_unimplemented_witness :
    (({ name := "web-upstream", location := "/", url := "b", type := "http" } : Upstream).type
        = "http" ∨
     ({ name := "web-upstream", location := "/", url := "b", type := "http" } : Upstream).type
        = "uwsgi") ∧
    ∃ d, proxyLocation { name := "web-upstream", location := "/", url := "b", type := "http" }
        = .ok d :=
  C10_no_unimplemented 0 [("web", .vdict [("upstream", .vstr "http://b")])] 0
    [upstreamDirective { name := "web-upstream", location := "/", url := "b", type := "http" }]
    [("web", { name := "web-upstream", location := "/", url := "b", type := "http" })]
    rfl _ (List.Mem.head _)

/-! ## C1: absent or `true` TLS -/

/-- C1 counterexample: a server entry with no `tls` key at all does not
default to TLS-required generation; `generate_server` fails with
"app.tls value is invalid". -/
theorem C1_counterexample :
    generate_server "app" [("server_name", .vstr "example.com")] [] =
      .error "app.tls value is invalid" := rfl

/-- C1 (amended): for every server entry whose `tls` field is absent (None)
or set to `true`, `generate_server` raises `'{name}.tls value is invalid'`
instead of defaulting to TLS-required output. -/
theorem C1_tls_absent_or_true_invalid (name : String) (description : List (String × YVal))
    (ups : List Upstream) (st : SrvState)
    (hc : collectOpts name description = .ok st)
    (hsn : yTruthy st.serverName = true)
    (htls : st.tls = .vnull ∨ st.tls = .vbool true) :
    generate_server name description ups = .error (name ++ ".tls value is invalid") := by
  unfold generate_server
  rw [hc]
  simp only [Bind.bind, Except.bind, hsn, if_true]
  rcases htls with htls | htls <;> rw [htls] <;> rfl

/-- Witness for C1: the amended theorem applied at a concrete `tls: true`
server entry. -/
theorem C1_tls_absent_or_true_invalid_witness :
    generate_server "app2" [("server_name", .vstr "d.example"), ("tls", .vbool true)] [] =
      .error "app2.tls value is invalid" :=
  C1_tls_absent_or_true_invalid "app2"
    [("server_name", .vstr "d.example"), ("tls", .vbool true)] []
    { serverName := .vstr "d.example", tls := .vbool true, checkHost := true, extra := [] }
    rfl rfl (Or.inr rfl)

/-! ## C6: host-header guard -/

theorem mapM_ok_mem {α β : Type} {f : α → Except String β} {l : List α} {ys : List β}
    (h : l.mapM f = .ok ys) : ∀ y ∈ ys, ∃ x ∈ l, f x = .ok y := by
  induction l generalizing ys with
  | nil => simp only [List.mapM_nil, pure, Except.pure, Except.ok.injEq] at h; subst h; simp
  | cons a as ih =>
    rw [List.mapM_cons] at h
    cases hfa : f a with
    | error e => rw [hfa] at h; simp [Bind.bind, Except.bind] at h
    | ok b =>
      rw [hfa] at h
      simp only [Bind.bind, Except.bind] at h
      cases hrest : as.mapM f with
      | error e => rw [hrest] at h; simp at h
      | ok bs =>
        rw [hrest] at h
        simp only [pure, Except.pure, Except.ok.injEq] at h
        subst h
        intro y hy
        rcases List.mem_cons.mp hy with rfl | hy
        · exact ⟨a, List.mem_cons_self a as, hfa⟩
        · obtain ⟨x, hx, hfx⟩ := ih hrest y hy
          exact ⟨x, List.mem_cons_of_mem a hx, hfx⟩

theorem safe_ne_hostGuard {d : Directive} {sn : String} (h : safeDir d) :
    d ≠ hostGuard sn := by
  intro hd
  subst hd
  rcases h with h | h
  · exact h rfl
  · exact absurd h (by simp [allStrDir, hostGuard])

/-- Every successful static-file entry is a `location` block. -/
theorem staticEntryCore_head {d : List (String × YVal)} {dir : Directive}
    (h : staticEntryCore d = .ok dir) : headTok dir = some "location" := by
  unfold staticEntryCore at h
  split at h
  · exact absurd h (by simp)
  split at h
  · exact absurd h (by simp)
  simp only [Bind.bind, Except.bind, Pure.pure, Except.pure] at h
  repeat' split at h
  all_goals try (cases h)
  all_goals rfl

theorem generate_static_files_entry_head {v : YVal} {dir : Directive}
    (h : generate_static_files_entry v = .ok dir) : headTok dir = some "location" := by
  match v with
  | .vstr p =>
    have h' : staticEntryCore [("path", .vstr p), ("location", .vstr "/static")] = .ok dir := h
    exact staticEntryCore_head h'
  | .vdict d => exact staticEntryCore_head h
  | .vnull | .vbool _ | .vlist _ => exact absurd h (by simp [generate_static_files_entry])

theorem generate_static_files_heads {v : YVal} {conf : Conf}
    (h : generate_static_files v = .ok conf) :
    ∀ d ∈ conf, headTok d = some "location" := by
  match v with
  | .vstr p =>
    simp only [generate_static_files] at h
    cases he : generate_static_files_entry (YVal.vstr p) with
    | error e => rw [he] at h; simp [Except.map] at h
    | ok dir =>
      rw [he] at h
      simp only [Except.map, Except.ok.injEq] at h
      subst h
      intro d hd
      rcases List.mem_singleton.mp hd with rfl
      exact generate_static_files_entry_head he
  | .vdict dd =>
    simp only [generate_static_files] at h
    cases he : generate_static_files_entry (YVal.vdict dd) with
    | error e => rw [he] at h; simp [Except.map] at h
    | ok dir =>
      rw [he] at h
      simp only [Except.map, Except.ok.injEq] at h
      subst h
      intro d hd
      rcases List.mem_singleton.mp hd with rfl
      exact generate_static_files_entry_head he
  | .vlist l =>
    simp only [generate_static_files] at h
    intro d hd
    obtain ⟨x, _, hfx⟩ := mapM_ok_mem h d hd
    exact generate_static_files_entry_head hfx
  | .vnull | .vbool _ => exact absurd h (by simp [generate_static_files])

theorem allStr_map_s (l : List String) : allStrDir (l.map Elem.s) = true := by
  simp [allStrDir, List.all_map, Function.comp]

/-- One option-loop step keeps every accumulated extra directive safe. -/
theorem collectOpt_extra_safe {name : String} {st st' : SrvState} {kv : String × YVal}
    (h : collectOpt name st kv = .ok st') (hs : ∀ d ∈ st.extra, safeDir d) :
    ∀ d ∈ st'.extra, safeDir d := by
  unfold collectOpt at h
  split_ifs at h with h1 h2 h3 h4 h5 h6
  · -- server_raw_options
    split at h
    · rename_i opts
      simp only [Bind.bind, Except.bind] at h
      split at h
      · exact absurd h (by simp)
      · rename_i toks htoks
        cases h
        intro d hd
        rcases List.mem_append.mp hd with hd | hd
        · exact hs d hd
        · obtain ⟨x, _, hfx⟩ := mapM_ok_mem htoks d hd
          split at hfx
          · cases hfx
            exact Or.inr (allStr_map_s _)
          · exact absurd hfx (by simp)
    · exact absurd h (by simp)
  · cases h; exact hs
  · -- static_files
    simp only [Bind.bind, Except.bind] at h
    split at h
    · exact absurd h (by simp)
    · rename_i conf hconf
      cases h
      intro d hd
      rcases List.mem_append.mp hd with hd | hd
      · exact hs d hd
      · exact Or.inl (by rw [generate_static_files_heads hconf d hd]; simp)
  · cases h; exact hs
  · split at h
    · cases h; exact hs
    · exact absurd h (by simp)
  · cases h; exact hs

theorem collectOpts_from_extra_safe {name : String} {desc : List (String × YVal)}
    {st₀ st : SrvState} (h : List.foldlM (collectOpt name) st₀ desc = .ok st)
    (hs : ∀ d ∈ st₀.extra, safeDir d) : ∀ d ∈ st.extra, safeDir d := by
  induction desc generalizing st₀ with
  | nil => simp only [List.foldlM_nil, pure, Except.pure, Except.ok.injEq] at h; subst h; exact hs
  | cons kv rest ih =>
    rw [List.foldlM_cons] at h
    cases hstep : collectOpt name st₀ kv with
    | error e => rw [hstep] at h; simp [Bind.bind, Except.bind] at h
    | ok st₁ =>
      rw [hstep] at h
      simp only [Bind.bind, Except.bind] at h
      exact ih h (collectOpt_extra_safe hstep hs)

theorem collectOpts_extra_safe {name : String} {desc : List (String × YVal)} {st : SrvState}
    (h : collectOpts name desc = .ok st) : ∀ d ∈ st.extra, safeDir d :=
  collectOpts_from_extra_safe h (by simp)

/-- One option-loop step away from the `check_host_header` key leaves the
flag unchanged. -/
theorem collectOpt_checkHost {name : String} {st st' : SrvState} {kv : String × YVal}
    (h : collectOpt name st kv = .ok st') (hk : kv.1 ≠ "check_host_header") :
    st'.checkHost = st.checkHost := by
  unfold collectOpt at h
  split_ifs at h with h1 h2 h3 h4 h5 h6
  · split at h
    · simp only [Bind.bind, Except.bind] at h
      split at h
      · exact absurd h (by simp)
      · cases h; rfl
    · exact absurd h (by simp)
  · cases h; rfl
  · simp only [Bind.bind, Except.bind] at h
    split at h
    · exact absurd h (by simp)
    · cases h; rfl
  · cases h; rfl
  · exact absurd (of_decide_eq_true (by exact h5)) hk
  · cases h; rfl

theorem collectOpts_from_checkHost {name : String} {desc : List (String × YVal)}
    {st₀ st : SrvState} (h : List.foldlM (collectOpt name) st₀ desc = .ok st)
    (hk : ∀ kv ∈ desc, kv.1 ≠ "check_host_header") : st.checkHost = st₀.checkHost := by
  induction desc generalizing st₀ with
  | nil => simp only [List.foldlM_nil, pure, Except.pure, Except.ok.injEq] at h; subst h; rfl
  | cons kv rest ih =>
    rw [List.foldlM_cons] at h
    cases hstep : collectOpt name st₀ kv with
    | error e => rw [hstep] at h; simp [Bind.bind, Except.bind] at h
    | ok st₁ =>
      rw [hstep] at h
      simp only [Bind.bind, Except.bind] at h
      rw [ih h (fun x hx => hk x (List.mem_cons_of_mem kv hx))]
      exact collectOpt_checkHost hstep (hk kv (List.mem_cons_self kv rest))

theorem generate_tls_config_safe {cert : List (String × YVal)} {conf : Conf}
    (h : generate_tls_config cert = .ok conf) : ∀ d ∈ conf, safeDir d := by
  unfold generate_tls_config at h
  split at h
  · exact absurd h (by simp)
  split at h
  · exact absurd h (by simp)
  cases h
  intro d hd
  rcases List.mem_append.mp hd with hd | hd
  · rcases List.mem_cons.mp hd with rfl | hd
    · exact Or.inl (by simp [headTok])
    · rcases List.mem_singleton.mp hd with rfl
      exact Or.inl (by simp [headTok])
  · split at hd
    · rcases List.mem_singleton.mp hd with rfl
      exact Or.inl (by simp [headTok])
    · exact absurd hd (by simp)

theorem tlsDispatch_safe {name sn : String} {tls : YVal} {b : Bool} {conf : Conf}
    (h : tlsDispatch name sn tls = .ok (b, conf)) : ∀ d ∈ conf, safeDir d := by
  match tls with
  | .vbool false => cases h; simp
  | .vbool true => exact absurd h (by simp [tlsDispatch])
  | .vnull => exact absurd h (by simp [tlsDispatch])
  | .vstr s =>
    simp only [tlsDispatch] at h
    split at h
    · simp only [Bind.bind, Except.bind] at h
      split at h
      · exact absurd h (by simp)
      · rename_i cconf hcc
        cases h
        intro d hd
        rcases List.mem_append.mp hd with hd | hd
        · exact generate_tls_config_safe hcc d hd
        · rcases List.mem_singleton.mp hd with rfl
          exact Or.inl (by simp [headTok])
    · exact absurd h (by simp)
  | .vdict dd =>
    simp only [tlsDispatch] at h
    cases hg : generate_tls_config dd with
    | error e => rw [hg] at h; simp [Except.map] at h
    | ok cconf =>
      rw [hg] at h
      simp only [Except.map, Except.ok.injEq, Prod.mk.injEq] at h
      intro d hd
      rw [← h.2] at hd
      exact generate_tls_config_safe hg d hd
  | .vlist l =>
    simp only [tlsDispatch, Bind.bind, Except.bind] at h
    split at h
    · exact absurd h (by simp)
    · rename_i confs hconfs
      cases h
      intro d hd
      obtain ⟨sub, hsub, hdsub⟩ := List.mem_flatten.mp hd
      obtain ⟨x, _, hfx⟩ := mapM_ok_mem hconfs sub hsub
      split at hfx
      · exact generate_tls_config_safe hfx d hdsub
      · exact absurd hfx (by simp)

theorem proxyLocation_safe {u : Upstream} {dir : Directive}
    (h : proxyLocation u = .ok dir) : safeDir dir := by
  unfold proxyLocation at h
  split_ifs at h
  · cases h; exact Or.inl (by simp [headTok])
  · cases h; exact Or.inl (by simp [headTok])

theorem hostGuard_mem_common (sn : String) (strict : Bool) :
    hostGuard sn ∈ base_config_http_common sn strict ↔ strict = true := by
  cases strict <;> simp [base_config_http_common, hostGuard]

theorem hostGuard_mem_redirect (sn : String) (strict : Bool) :
    hostGuard sn ∈ base_config_https_redirect sn strict ↔ strict = true := by
  cases strict <;> simp [base_config_https_redirect, base_config_http_common, hostGuard]

theorem hostGuard_mem_http (sn : String) (strict : Bool) :
    hostGuard sn ∈ base_config_http sn strict ↔ strict = true := by
  cases strict <;>
    simp [base_config_http, base_config_http_common, addHeaderDirectives, HTTP_HEADERS, hostGuard]

theorem hostGuard_mem_https (sn : String) (strict : Bool) :
    hostGuard sn ∈ base_config_https sn strict ↔ strict = true := by
  cases strict <;>
    simp [base_config_https, addHeaderDirectives, HTTPS_HEADERS, HTTP_HEADERS, hostGuard]

/-- C6: in every server block emitted by `generate_server` (HTTPS-redirect,
TLS or plaintext variant) the strict host-header conditional — rejecting
requests whose `Host` header does not case-insensitively match the
configured domain with status 444 — occurs among the block's directives if
and only if the resolved `check_host_header` flag is true, and that flag is
true whenever the `check_host_header` key is absent from the description. -/
theorem C6_host_header_guard (name : String) (description : List (String × YVal))
    (ups : List Upstream) (st : SrvState) (servers : Conf)
    (hc : collectOpts name description = .ok st)
    (hg : generate_server name description ups = .ok servers) :
    ((∀ kv ∈ description, kv.1 ≠ "check_host_header") → st.checkHost = true) ∧
    ∀ b ∈ servers, ∃ children, b = [.s "server", .blk children] ∧
      (hostGuard (yFormat st.serverName) ∈ children ↔ st.checkHost = true) := by
  constructor
  · intro hk
    exact collectOpts_from_checkHost hc hk
  unfold generate_server at hg
  rw [hc] at hg
  simp only [Bind.bind, Except.bind] at hg
  by_cases ht : yTruthy st.serverName
  swap
  · rw [if_neg ht] at hg; exact absurd hg (by simp)
  rw [if_pos ht] at hg
  cases hdis : tlsDispatch name (yFormat st.serverName) st.tls with
  | error e => rw [hdis] at hg; simp at hg
  | ok p =>
    obtain ⟨use_tls, tlsConf⟩ := p
    rw [hdis] at hg
    cases hpx : ups.mapM proxyLocation with
    | error e => rw [hpx] at hg; simp at hg
    | ok proxies =>
      rw [hpx] at hg
      simp only at hg
      have hsafe : ∀ d ∈ st.extra ++ tlsConf ++ proxies, safeDir d := by
        intro d hd
        rcases List.mem_append.mp hd with hd | hd
        · rcases List.mem_append.mp hd with hd | hd
          · exact collectOpts_extra_safe hc d hd
          · exact tlsDispatch_safe hdis d hd
        · obtain ⟨x, _, hfx⟩ := mapM_ok_mem hpx d hd
          exact proxyLocation_safe hfx
      have hnotextra : hostGuard (yFormat st.serverName) ∉ st.extra ++ tlsConf ++ proxies := by
        intro hmem
        exact safe_ne_hostGuard (hsafe _ hmem) rfl
      cases use_tls with
      | true =>
        simp only [if_pos rfl] at hg
        cases hg
        intro b hb
        rcases List.mem_cons.mp hb with rfl | hb
        · refine ⟨_, rfl, ?_⟩
          rw [List.singleton_append, List.mem_cons, hostGuard_mem_redirect]
          constructor
          · rintro (habs | hm)
            · exact absurd habs (by simp [hostGuard])
            · exact hm
          · exact fun hm => Or.inr hm
        rcases List.mem_cons.mp hb with rfl | hb
        · refine ⟨_, rfl, ?_⟩
          rw [List.mem_append, List.singleton_append, List.mem_cons, hostGuard_mem_https]
          constructor
          · rintro ((habs | hm) | habs)
            · exact absurd habs (by simp [hostGuard])
            · exact hm
            · exact absurd habs hnotextra
          · exact fun hm => Or.inl (Or.inr hm)
        · exact absurd hb (by simp)
      | false =>
        simp only [Bool.false_eq_true, if_false] at hg
        cases hg
        intro b hb
        rcases List.mem_cons.mp hb with rfl | hb
        · refine ⟨_, rfl, ?_⟩
          rw [List.mem_append, List.singleton_append, List.mem_cons, hostGuard_mem_http]
          constructor
          · rintro ((habs | hm) | habs)
            · exact absurd habs (by simp [hostGuard])
            · exact hm
            · exact absurd habs hnotextra
          · exact fun hm => Or.inl (Or.inr hm)
        · exact absurd hb (by simp)

/-- Witness for C6: a concrete plaintext server with the default
`check_host_header` carries the guard in its single block. -/
theorem C6_host_header_guard_witness :
    hostGuard "example.com" ∈
      [[Elem.s "#", Elem.s "w"]] ++ base_config_http "example.com" true := by
  have h := (C6_host_header_guard "w"
    [("server_name", YVal.vstr "example.com"), ("tls", YVal.vbool false)] []
    { serverName := .vstr "example.com", tls := .vbool false, checkHost := true, extra := [] }
    [[Elem.s "server",
      Elem.blk ([[Elem.s "#", Elem.s "w"]] ++ base_config_http "example.com" true)]]
    rfl rfl).2 _ (List.Mem.head _)
  obtain ⟨children, heq, hiff⟩ := h
  simp only [List.cons.injEq, Elem.blk.injEq] at heq
  rw [heq.2.1]
  exact hiff.mpr rfl


/-! ## C7: anonymous upstream naming -/

theorem digitChr_toNat {d : Nat} (h : d < 10) : (digitChr d).toNat = 48 + d := by
  interval_cases d <;> rfl

theorem digitsVal_append (l : List Char) (c : Char) :
    digitsVal (l ++ [c]) = digitsVal l * 10 + (c.toNat - 48) := by
  simp [digitsVal, List.foldl_append]

theorem natDigitsAux_val {fuel n : Nat} (h : n < fuel) :
    digitsVal (natDigitsAux fuel n) = n := by
  induction fuel generalizing n with
  | zero => omega
  | succ fuel ih =>
    rw [natDigitsAux]
    by_cases h10 : n < 10
    · rw [if_pos h10]
      have := digitChr_toNat h10
      simp [digitsVal, this]
    · rw [if_neg h10]
      have hpos : 0 < n := by omega
      have hlt : n / 10 < n := Nat.div_lt_self hpos (by omega)
      have hdiv : n / 10 < fuel := by omega
      rw [digitsVal_append, ih hdiv, digitChr_toNat (Nat.mod_lt n (by omega))]
      have := Nat.div_add_mod n 10
      omega

theorem natStr_inj {m n : Nat} (h : natStr m = natStr n) : m = n := by
  have hd : natDigitsAux (m + 1) m = natDigitsAux (n + 1) n := congrArg String.data h
  have hm := natDigitsAux_val (Nat.lt_succ_self m)
  have hn := natDigitsAux_val (Nat.lt_succ_self n)
  rw [← hm, ← hn, hd]

theorem autoName_inj {m n : Nat}
    (h : "upstream-auto-" ++ natStr m = "upstream-auto-" ++ natStr n) : m = n := by
  apply natStr_inj
  have hd : ("upstream-auto-" ++ natStr m).data = ("upstream-auto-" ++ natStr n).data :=
    congrArg String.data h
  have hd2 : ("upstream-auto-" : String).data ++ (natStr m).data =
      ("upstream-auto-" : String).data ++ (natStr n).data := hd
  have := List.append_cancel_left hd2
  unfold natStr
  exact congrArg String.mk this

/-- Counter and name behaviour of one `parse_single_upstream` call. -/
theorem parse_single_anon {c : Nat} {sn : String} {e : YVal} {c' : Nat} {u : Upstream}
    (h : parse_single_upstream c sn e = .ok (c', u)) :
    (isAnonEntry e = true → c' = c + 1 ∧ u.name = "upstream-auto-" ++ natStr (c + 1)) ∧
    (isAnonEntry e = false → c' = c) := by
  match e with
  | .vstr url =>
    rw [parse_single_vstr] at h
    exact ⟨fun hae => by simp [isAnonEntry] at hae,
           fun _ => (exceptMap_pair_ok h).2.symm⟩
  | .vdict d =>
    rw [parse_single_vdict] at h
    by_cases hn : (yLookup d "name").isSome
    · rw [if_pos hn] at h
      refine ⟨fun hae => ?_, fun _ => (exceptMap_pair_ok h).2.symm⟩
      simp [isAnonEntry, hn] at hae
    · rw [if_neg hn] at h
      have hnone : yLookup d "name" = none := Option.not_isSome_iff_eq_none.mp hn
      obtain ⟨hok, hcc⟩ := exceptMap_pair_ok h
      refine ⟨fun _ => ⟨hcc.symm, ?_⟩, fun hae => by simp [isAnonEntry, hnone] at hae⟩
      obtain ⟨nm, loc, hnm, hloc, hun, -⟩ := upstreamOfDict_ok hok
      rw [yLookup_append_of_none hnone] at hnm
      simp only [show (("name" == "name") = true) from rfl, if_true, Option.some.injEq] at hnm
      rw [hun, ← hnm]
      rfl
  | .vnull | .vbool _ | .vlist _ => exact absurd h (by simp [parse_single_upstream])

/-- Name assignment along `parse_flat`: lengths agree, the final counter adds
the number of anonymous entries, and the `i`-th record of the output is named
after the running count of anonymous entries up to and including position `i`
whenever the `i`-th entry is anonymous. -/
theorem parse_flat_names {c : Nat} {pairs : List (String × YVal)} {c' : Nat}
    {us : List (String × Upstream)} (h : parse_flat c pairs = .ok (c', us)) :
    us.length = pairs.length ∧
    c' = c + pairs.countP (fun p => isAnonEntry p.2) ∧
    ∀ i (hi : i < pairs.length), isAnonEntry (pairs.get ⟨i, hi⟩).2 = true →
      ∃ hi2 : i < us.length, (us.get ⟨i, hi2⟩).2.name =
        "upstream-auto-" ++
          natStr (c + (pairs.take (i + 1)).countP (fun p => isAnonEntry p.2)) := by
  induction pairs generalizing c us with
  | nil =>
    simp only [parse_flat, Except.ok.injEq] at h
    cases h
    refine ⟨rfl, by simp, ?_⟩
    intro i hi
    simp at hi
  | cons hd tl ih =>
    obtain ⟨sn, e⟩ := hd
    simp only [parse_flat, Bind.bind, Except.bind] at h
    split at h
    · exact absurd h (by simp)
    rename_i res heq
    obtain ⟨c₁, u⟩ := res
    split at h
    · exact absurd h (by simp)
    rename_i res₂ heq₂
    obtain ⟨c₂, us₂⟩ := res₂
    cases h
    obtain ⟨ihl, ihc, ihn⟩ := ih heq₂
    have hstep := parse_single_anon heq
    have hc₁ : c₁ = c + (if isAnonEntry e = true then 1 else 0) := by
      cases hae : isAnonEntry e
      · have := hstep.2 hae
        simp only [Bool.false_eq_true, if_false]
        omega
      · have := (hstep.1 hae).1
        simp [this]
    refine ⟨by simp [ihl], ?_, ?_⟩
    · rw [ihc, hc₁, List.countP_cons]
      cases hae : isAnonEntry e <;> simp [hae] <;> try omega
    · intro i hi hai
      match i with
      | 0 =>
        refine ⟨by simp, ?_⟩
        simp only [List.get] at hai ⊢
        obtain ⟨-, hname⟩ := hstep.1 hai
        rw [hname]
        congr 2
        simp [List.countP_cons, hai]
      | Nat.succ i =>
        simp only [List.get] at hai ⊢
        have hi' : i < tl.length := by simpa using hi
        obtain ⟨hi2, hname⟩ := ihn i hi' hai
        refine ⟨by simpa using hi2, ?_⟩
        rw [hname]
        congr 2
        rw [List.take_succ_cons, List.countP_cons]
        cases hae : isAnonEntry e <;> simp [hae] at hc₁ ⊢ <;> omega

/-- `parse_entries` is `parse_flat` on the entries tagged with their server. -/
theorem parse_entries_flat {c : Nat} {sn : String} {entries : List YVal} {c' : Nat}
    {us : List Upstream} (h : parse_entries c sn entries = .ok (c', us)) :
    parse_flat c (entries.map ((sn, ·))) = .ok (c', us.map ((sn, ·))) := by
  induction entries generalizing c us with
  | nil =>
    simp only [parse_entries, Except.ok.injEq] at h
    cases h
    rfl
  | cons e tl ih =>
    simp only [parse_entries, Bind.bind, Except.bind] at h
    split at h
    · exact absurd h (by simp)
    rename_i res heq
    obtain ⟨c₁, u⟩ := res
    split at h
    · exact absurd h (by simp)
    rename_i res₂ heq₂
    obtain ⟨c₂, us₂⟩ := res₂
    cases h
    simp only [List.map_cons, parse_flat, Bind.bind, Except.bind, heq, ih heq₂]

/-- `parse_flat` splits over list append. -/
theorem parse_flat_append {c : Nat} {a b : List (String × YVal)} {c₁ c₂ : Nat}
    {usa usb : List (String × Upstream)}
    (ha : parse_flat c a = .ok (c₁, usa)) (hb : parse_flat c₁ b = .ok (c₂, usb)) :
    parse_flat c (a ++ b) = .ok (c₂, usa ++ usb) := by
  induction a generalizing c usa with
  | nil =>
    simp only [parse_flat, Except.ok.injEq] at ha
    cases ha
    simpa using hb
  | cons hd tl ih =>
    obtain ⟨sn, e⟩ := hd
    simp only [parse_flat, Bind.bind, Except.bind] at ha ⊢
    split at ha
    · exact absurd ha (by simp)
    rename_i res heq
    obtain ⟨ca, u⟩ := res
    split at ha
    · exact absurd ha (by simp)
    rename_i res₂ heq₂
    obtain ⟨cb, us₂⟩ := res₂
    cases ha
    rw [List.cons_append]
    simp only [parse_flat, Bind.bind, Except.bind, heq]
    have hy : parse_flat ca (tl.append b) = Except.ok (c₂, us₂ ++ usb) := ih heq₂
    rw [hy]

/-- `parse_upstreams_servers` agrees with `parse_flat` on the flattened
document-wide entry list. -/
theorem parse_upstreams_flat {c : Nat} {servers : List (String × YVal)} {c' : Nat}
    {conf : Conf} {cfgs : List (String × Upstream)}
    (h : parse_upstreams_servers c servers = .ok (c', conf, cfgs)) :
    ∃ pairs, flatEntries servers = .ok pairs ∧ parse_flat c pairs = .ok (c', cfgs) := by
  induction servers generalizing c c' conf cfgs with
  | nil =>
    simp only [parse_upstreams_servers, Except.ok.injEq] at h
    cases h
    exact ⟨[], rfl, rfl⟩
  | cons hd tl ih =>
    obtain ⟨sn, scv⟩ := hd
    simp only [parse_upstreams_servers] at h
    split at h
    · rename_i sc
      split at h
      · rename_i hup
        obtain ⟨pairs, hf, hp⟩ := ih h
        exact ⟨pairs, by simp only [flatEntries, hup, hf], hp⟩
      · rename_i v hup
        simp only [Bind.bind, Except.bind] at h
        split at h
        · exact absurd h (by simp)
        rename_i entries hent
        split at h
        · exact absurd h (by simp)
        rename_i res heq
        obtain ⟨c₁, ups⟩ := res
        split at h
        · exact absurd h (by simp)
        rename_i res₂ heq₂
        obtain ⟨c₂, conf₂, cfgs₂⟩ := res₂
        cases h
        obtain ⟨pairs₂, hf₂, hp₂⟩ := ih heq₂
        refine ⟨entries.map ((sn, ·)) ++ pairs₂, ?_, ?_⟩
        · simp only [flatEntries, hup, hent, Bind.bind, Except.bind, hf₂]
        · exact parse_flat_append (parse_entries_flat heq) hp₂
    · exact absurd h (by simp)

/-- C7: starting from counter 0, every structured upstream entry without an
explicit name — anywhere in the document, across servers — is assigned a name
`upstream-auto-N` with `N` strictly increasing in encounter order over the
flattened entry list, so all anonymous names of the run are pairwise
distinct. -/
theorem C7_anonymous_upstream_names (servers : List (String × YVal)) (c' : Nat)
    (conf : Conf) (cfgs : List (String × Upstream)) (pairs : List (String × YVal))
    (h : parse_upstreams_servers 0 servers = .ok (c', conf, cfgs))
    (hf : flatEntries servers = .ok pairs) :
    cfgs.length = pairs.length ∧
    ∀ i j (hi : i < pairs.length) (hj : j < pairs.length), i < j →
      isAnonEntry (pairs.get ⟨i, hi⟩).2 = true →
      isAnonEntry (pairs.get ⟨j, hj⟩).2 = true →
      ∃ (hi2 : i < cfgs.length) (hj2 : j < cfgs.length) (N M : Nat),
        N < M ∧
        (cfgs.get ⟨i, hi2⟩).2.name = "upstream-auto-" ++ natStr N ∧
        (cfgs.get ⟨j, hj2⟩).2.name = "upstream-auto-" ++ natStr M ∧
        (cfgs.get ⟨i, hi2⟩).2.name ≠ (cfgs.get ⟨j, hj2⟩).2.name := by
  obtain ⟨pairs', hf', hpf⟩ := parse_upstreams_flat h
  rw [hf] at hf'
  cases hf'
  obtain ⟨hlen, -, hidx⟩ := parse_flat_names hpf
  refine ⟨hlen, ?_⟩
  intro i j hi hj hij hai haj
  obtain ⟨hi2, hni⟩ := hidx i hi hai
  obtain ⟨hj2, hnj⟩ := hidx j hj haj
  set P : String × YVal → Bool := fun p => isAnonEntry p.2 with hP
  set N := 0 + (pairs.take (i + 1)).countP P with hN
  set M := 0 + (pairs.take (j + 1)).countP P with hM
  have hNM : N < M := by
    have h1 : (pairs.take (i + 1)).countP P ≤ (pairs.take j).countP P :=
      (List.take_sublist_take_left pairs (by omega)).countP_le P
    have h2 : (pairs.take (j + 1)).countP P = (pairs.take j).countP P + 1 := by
      rw [List.take_succ]
      rw [List.countP_append]
      have : pairs[j]? = some (pairs.get ⟨j, hj⟩) := List.getElem?_eq_getElem hj
      rw [this]
      have haj' : isAnonEntry pairs[j].2 = true := haj
      simp [List.countP, List.countP.go, hP, haj']
    omega
  refine ⟨hi2, hj2, N, M, hNM, hni, hnj, ?_⟩
  rw [hni, hnj]
  intro hcontra
  exact absurd (autoName_inj hcontra) (by omega)


/-- Witness for C7: on a document with two anonymous upstream entries the
resolver assigns `upstream-auto-1` and `upstream-auto-2`, which differ. -/
theorem C7_anonymous_upstream_names_witness :
    ("upstream-auto-1" : String) ≠ "upstream-auto-2" := by
  have h := (C7_anonymous_upstream_names
    [("web", .vdict [("upstream", .vlist
        [.vdict [("url", .vstr "http://a"), ("location", .vstr "/")],
         .vdict [("url", .vstr "http://b"), ("location", .vstr "/x")]])])]
    _ _ _ _ rfl rfl).2 0 1 (by decide) (by decide) (by decide) (by decide) (by decide)
  obtain ⟨hi2, hj2, N, M, hNM, hN, hM, hne⟩ := h
  exact hne

/-! ## C2: the serializer contract -/

theorem pad_add (m k : Nat) : pad (m + k) = pad m ++ pad k := by
  unfold pad
  rw [List.replicate_add]
  rfl

/-- The serializer agrees with the spec-worded rendering on trees satisfying
the comment invariant. -/
theorem emit_eq_renderSpec_aux :
    ∀ (n : Nat) (config : Conf) (indent : Nat), sizeOf config ≤ n →
      wfConf config = true → emit_nginx_conf config indent = renderSpec config indent := by
  intro n
  induction n using Nat.strong_induction_on with
  | _ n ih =>
    intro config indent hsz hwf
    match config with
    | [] => simp [emit_nginx_conf, renderSpec]
    | item :: rest =>
      simp only [List.cons.sizeOf_spec] at hsz
      simp only [wfConf] at hwf
      rw [Bool.and_eq_true] at hwf
      obtain ⟨hwf1, hwfrest⟩ := hwf
      have hlt2 : sizeOf rest < n := by omega
      have hrest := ih _ hlt2 rest indent le_rfl hwfrest
      simp only [emit_nginx_conf, renderSpec]
      by_cases hb : (lastBlk item).isSome
      · rw [dif_pos hb] at hwf1
        rw [Bool.and_eq_true] at hwf1
        obtain ⟨hnh, hwc⟩ := hwf1
        have hh : isHashHead item = false := by
          cases hhh : isHashHead item
          · rfl
          · rw [hhh] at hnh; simp at hnh
        have hlt1 : sizeOf ((lastBlk item).get hb) < n := by
          have h1 := sizeOf_lastBlk_get_lt hb
          omega
        have hrec := ih _ hlt1 ((lastBlk item).get hb) (indent + 2) le_rfl hwc
        rw [dif_pos hb, if_neg (by rw [hh]; simp), dif_pos hb, hrec, hrest]
      · rw [dif_neg hb]
        by_cases hh : isHashHead item
        · rw [if_pos hh, if_pos hh, hrest]
        · rw [if_neg hh, if_neg hh, dif_neg hb, hrest]

/-- Every line printed at a given indent starts with that many spaces. -/
theorem emit_lines_pad :
    ∀ (n : Nat) (config : Conf) (indent : Nat), sizeOf config ≤ n →
      ∀ line ∈ emit_nginx_conf config indent, ∃ t, line = pad indent ++ t := by
  intro n
  induction n using Nat.strong_induction_on with
  | _ n ih =>
    intro config indent hsz line hline
    match config with
    | [] => simp [emit_nginx_conf] at hline
    | item :: rest =>
      simp only [List.cons.sizeOf_spec] at hsz
      have hlt2 : sizeOf rest < n := by omega
      simp only [emit_nginx_conf] at hline
      rcases List.mem_append.mp hline with hl | hl
      · by_cases hb : (lastBlk item).isSome
        · rw [dif_pos hb] at hl
          rcases List.mem_cons.mp hl with rfl | hl
          · exact ⟨joinToks item.dropLast ++ " \x7b", by rw [String.append_assoc]⟩
          rcases List.mem_append.mp hl with hl | hl
          · have hlt1 : sizeOf ((lastBlk item).get hb) < n := by
              have h1 := sizeOf_lastBlk_get_lt hb
              omega
            obtain ⟨t, ht⟩ := ih _ hlt1 ((lastBlk item).get hb) (indent + 2) le_rfl line hl
            refine ⟨pad 2 ++ t, ?_⟩
            rw [ht, pad_add, String.append_assoc]
          · rcases List.mem_singleton.mp hl with rfl
            exact ⟨"\x7d", rfl⟩
        · rw [dif_neg hb] at hl
          by_cases hh : isHashHead item
          · rw [if_pos hh] at hl
            rcases List.mem_singleton.mp hl with rfl
            exact ⟨joinToks item, rfl⟩
          · rw [if_neg hh] at hl
            rcases List.mem_singleton.mp hl with rfl
            exact ⟨joinToks item ++ ";", by rw [String.append_assoc]⟩
      · exact ih _ hlt2 rest indent le_rfl line hl

/-- C2: for every directive tree satisfying the data-model invariant
(comments are never block-valued) and every indent, the serializer renders
exactly as the spec words it — comments space-joined with no terminator,
block directives as non-final tokens plus an opening brace with children at
indent + 2 and a closing brace at the current indent, and all other
directives space-joined with exactly one trailing `;` — and every emitted
line carries the current indent (two spaces per nesting level) as a literal
prefix. -/
theorem C2_serializer (config : Conf) (indent : Nat) :
    (wfConf config = true → emit_nginx_conf config indent = renderSpec config indent) ∧
    (∀ line ∈ emit_nginx_conf config indent, ∃ t, line = pad indent ++ t) :=
  ⟨fun hwf => emit_eq_renderSpec_aux (sizeOf config) config indent le_rfl hwf,
   fun line hl => emit_lines_pad (sizeOf config) config indent le_rfl line hl⟩

/-- Witness for C2: the top-level directive table (comment, statements and a
block) satisfies the invariant and the serializer agrees with the spec
rendering on it. -/
theorem C2_serializer_witness :
    wfConf NGINX_GLOBALS = true ∧
    emit_nginx_conf NGINX_GLOBALS 0 = renderSpec NGINX_GLOBALS 0 := by
  have hwf : wfConf NGINX_GLOBALS = true := by
    simp [wfConf, NGINX_GLOBALS, lastBlk, isHashHead]
  exact ⟨hwf, (C2_serializer NGINX_GLOBALS 0).1 hwf⟩

end Zombie
